import Mathlib

/-
A shallow embedding of the local-first synchronization engine of the NagToDo
mobile client, translated from the TypeScript in the local-first architecture
document (domain model, repositories, sync queue, task service orchestrator,
sync service, conflict resolver), together with theorems checking the
specification claims about it.

Modelling conventions: timestamps are Nat ticks drawn from a logical clock in
the state (ISO strings in the source compare chronologically, as do Nat);
generated ids come from a counter in the state (UUIDs in the source); the
asynchronous TypeScript methods become functions in a state-plus-exceptions
monad M over the combined state of the local store, the remote store, the
sync queue, the id generator, the clock, a remote-outage flag, and the
daemon running flag. A thrown JavaScript error is an Except.error value;
try/catch keeps the state changes made before the throw, as in the source.
-/

namespace LocalFirst

/-- SyncStatus enum from the domain model. -/
inductive SyncStatus where
  | synced
  | pending
  | conflict
  | error
deriving DecidableEq

/-- The frecuency union type of the Task interface (spelling as in the source). -/
inductive Frecuency where
  | daily
  | weekly
  | monthly
  | single
deriving DecidableEq

/-- The Task domain record. The sync_error column of the schema is carried
along so that markError has a place to record its message. -/
structure Task where
  id : Nat
  name : String
  description : Option String
  finished : Bool
  alarm_time : String
  frecuency : Frecuency
  alarm_interval : Nat
  user_id : Nat
  created_at : Nat
  updated_at : Nat
  deleted_at : Option Nat
  version : Nat
  sync_status : SyncStatus
  sync_error : Option String
deriving DecidableEq

/-- TaskCreate, the Omit of Task dropping id, created_at, updated_at, version
and sync_status (deleted_at stays in the type, as in the source). -/
structure TaskCreate where
  name : String
  description : Option String
  finished : Bool
  alarm_time : String
  frecuency : Frecuency
  alarm_interval : Nat
  user_id : Nat
  deleted_at : Option Nat
deriving DecidableEq

/-- TaskUpdate, the Partial of Task without id, user_id and created_at:
every field optional, a present field overwrites the stored one. -/
structure TaskUpdate where
  name : Option String := none
  description : Option (Option String) := none
  finished : Option Bool := none
  alarm_time : Option String := none
  frecuency : Option Frecuency := none
  alarm_interval : Option Nat := none
  updated_at : Option Nat := none
  deleted_at : Option (Option Nat) := none
  version : Option Nat := none
  sync_status : Option SyncStatus := none
deriving DecidableEq

/-- The operation kind of a queued sync operation. -/
inductive OpType where
  | CREATE
  | UPDATE
  | DELETE
deriving DecidableEq

/-- The untyped data payload of a SyncOperation. In the source this field has
type any; each call site stores either a TaskCreate (createTask in background
mode), a TaskUpdate (updateTask in background mode), or a whole Task
(mergeChanges). -/
inductive OpData where
  | ofCreate (d : TaskCreate)
  | ofUpdate (u : TaskUpdate)
  | ofTask (t : Task)
deriving DecidableEq

/-- SyncOperation, one row of the sync_queue table. -/
structure SyncOperation where
  id : Nat
  type : OpType
  taskId : Nat
  data : OpData
  previousVersion : Option Nat
  retryCount : Nat
  createdAt : Nat
  error : Option String
deriving DecidableEq

/-- The error taxonomy of the services: NotFoundError, StorageError,
ConflictError, TransactionError (wrapping its cause), ManualConflictError
(carrying both versions). -/
inductive Err where
  | notFound (msg : String)
  | storage (msg : String)
  | conflict (msg : String)
  | transaction (msg : String) (cause : Err)
  | manualConflict (localTask remoteTask : Task)
deriving DecidableEq

/-- error.message of a thrown error, as read by processQueue. -/
def errMessage : Err → String
  | Err.notFound m => m
  | Err.storage m => m
  | Err.conflict m => m
  | Err.transaction m _ => m
  | Err.manualConflict _ _ => "Manual conflict"

/-- TaskServiceConfig from the source. -/
structure TaskServiceConfig where
  enableSync : Bool
  syncOnWrite : Bool
  retryAttempts : Nat
  retryDelayMs : Nat
deriving DecidableEq

/-- SyncConfig: the fields of the sync daemon configuration the embedded code
reads. -/
structure SyncConfig where
  intervalMs : Nat
  maxRetries : Nat
deriving DecidableEq

/-- The combined mutable world: local SQLite rows, remote Supabase rows, the
sync_queue rows, the id generator counter, the logical clock, a flag making
every remote call fail with a storage error (network outage), and the sync
daemon running flag. -/
structure St where
  localRows : List Task
  remoteRows : List Task
  queue : List SyncOperation
  nextId : Nat
  clock : Nat
  remoteDown : Bool
  running : Bool
deriving DecidableEq

deriving instance DecidableEq for Except

/-- The state-plus-exceptions monad the embedded methods run in. -/
def M (α : Type) : Type := St → Except Err α × St

instance : Monad M where
  pure a := fun s => (Except.ok a, s)
  bind x f := fun s =>
    match x s with
    | (Except.ok a, s1) => f a s1
    | (Except.error e, s1) => (Except.error e, s1)

/-- throw: abort with an error, keeping the state reached so far. -/
def throwErr {α : Type} (e : Err) : M α := fun s => (Except.error e, s)

/-- try/catch: on error the handler runs from the state at the throw point. -/
def catchE {α : Type} (x : M α) (h : Err → M α) : M α := fun s =>
  match x s with
  | (Except.ok a, s1) => (Except.ok a, s1)
  | (Except.error e, s1) => h e s1

/-- new Date().toISOString(): read the clock and advance it. -/
def tick : M Nat := fun s => (Except.ok s.clock, { s with clock := s.clock + 1 })

/-- The running flag of the sync daemon. -/
def getRunning : M Bool := fun s => (Except.ok s.running, s)

/-- Merge a TaskUpdate into a stored Task: present fields overwrite, the
fields outside the TaskUpdate type (id, user_id, created_at, sync_error)
are untouched. -/
def applyUpdate (t : Task) (u : TaskUpdate) : Task :=
  { t with
    name := u.name.getD t.name
    description := u.description.getD t.description
    finished := u.finished.getD t.finished
    alarm_time := u.alarm_time.getD t.alarm_time
    frecuency := u.frecuency.getD t.frecuency
    alarm_interval := u.alarm_interval.getD t.alarm_interval
    updated_at := u.updated_at.getD t.updated_at
    deleted_at := u.deleted_at.getD t.deleted_at
    version := u.version.getD t.version
    sync_status := u.sync_status.getD t.sync_status }

/-- The TaskCreate carved out of a full Task, as the spread in
syncCreateToRemote does (drops id, created_at, updated_at, version,
sync_status). -/
def taskCreateOfTask (t : Task) : TaskCreate :=
  { name := t.name
    description := t.description
    finished := t.finished
    alarm_time := t.alarm_time
    frecuency := t.frecuency
    alarm_interval := t.alarm_interval
    user_id := t.user_id
    deleted_at := t.deleted_at }

/-- A whole Task spread into an update object, as the rollback and
mergeChanges call sites do: every updatable field present. -/
def taskUpdateOfTask (t : Task) : TaskUpdate :=
  { name := some t.name
    description := some t.description
    finished := some t.finished
    alarm_time := some t.alarm_time
    frecuency := some t.frecuency
    alarm_interval := some t.alarm_interval
    updated_at := some t.updated_at
    deleted_at := some t.deleted_at
    version := some t.version
    sync_status := some t.sync_status }

/-- Insertion step for the created_at DESC ordering of getAll. -/
def insertByCreatedDesc (t : Task) : List Task → List Task
  | [] => [t]
  | x :: xs =>
      if t.created_at ≤ x.created_at then x :: insertByCreatedDesc t xs
      else t :: x :: xs

/-- ORDER BY created_at DESC. -/
def sortByCreatedDesc : List Task → List Task
  | [] => []
  | x :: xs => insertByCreatedDesc x (sortByCreatedDesc xs)

/-- SQLiteTaskRepository.getAll: active (non-deleted) rows of the user,
newest created first. -/
def localGetAll (userId : Nat) : M (List Task) := fun s =>
  (Except.ok (sortByCreatedDesc (s.localRows.filter
      (fun t => t.user_id == userId && t.deleted_at == none))), s)

/-- SQLiteTaskRepository.getById: the row or an explicit none. -/
def localGetById (id : Nat) : M (Option Task) := fun s =>
  (Except.ok (s.localRows.find? (fun t => t.id == id)), s)

/-- SQLiteTaskRepository.create: generated id, now timestamps, version 1,
sync_status pending; deleted_at and sync_error are not inserted (NULL). -/
def localCreate (tc : TaskCreate) : M Task := fun s =>
  let t : Task :=
    { id := s.nextId
      name := tc.name
      description := tc.description
      finished := tc.finished
      alarm_time := tc.alarm_time
      frecuency := tc.frecuency
      alarm_interval := tc.alarm_interval
      user_id := tc.user_id
      created_at := s.clock
      updated_at := s.clock
      deleted_at := none
      version := 1
      sync_status := SyncStatus.pending
      sync_error := none }
  (Except.ok t, { s with localRows := s.localRows ++ [t],
                         nextId := s.nextId + 1, clock := s.clock + 1 })

/-- Modelled from the spec: the body of SQLiteTaskRepository.update is elided
in the source; per the repository contract it fails with NotFoundError when
the id is absent, otherwise merges the given changes into the stored row,
persists and returns the updated record. -/
def localUpdate (id : Nat) (u : TaskUpdate) : M Task := fun s =>
  match s.localRows.find? (fun t => t.id == id) with
  | none => (Except.error (Err.notFound "Task not found"), s)
  | some t =>
      let t2 := applyUpdate t u
      let rows := s.localRows.map (fun r => if r.id == id then t2 else r)
      (Except.ok t2, { s with localRows := rows })

/-- Modelled from the spec: the body of SQLiteTaskRepository.delete is elided
in the source; per the repository contract it is physical removal of the
row. -/
def localDelete (id : Nat) : M Unit := fun s =>
  (Except.ok (), { s with localRows := s.localRows.filter (fun t => t.id != id) })

/-- The row transformation of markSynced: set sync_status to synced only on
the row of the given id whose stored version still equals the given one. -/
def markSyncedRow (id : Nat) (version : Option Nat) (t : Task) : Task :=
  if t.id == id && some t.version == version
  then { t with sync_status := SyncStatus.synced } else t

/-- Modelled from the spec: the body of SQLiteTaskRepository.markSynced is
elided in the source; per the repository contract it sets sync_status to
synced only if the stored version still equals the given version, else it is
a no-op. The version argument is an Option because executeOperation can pass
an undefined version through the untyped payload. -/
def localMarkSynced (id : Nat) (version : Option Nat) : M Unit := fun s =>
  (Except.ok (), { s with localRows := s.localRows.map (markSyncedRow id version) })

/-- Modelled from the spec: the body of SQLiteTaskRepository.markError is
elided in the source; per the repository contract it sets sync_status to
error and records the message. -/
def localMarkError (id : Nat) (msg : String) : M Unit := fun s =>
  (Except.ok (), { s with localRows := s.localRows.map (fun t =>
      if t.id == id
      then { t with sync_status := SyncStatus.error, sync_error := some msg }
      else t) })

/-- SupabaseTaskRepository.getAll: fails when the network is down, otherwise
active rows of the user, newest created first. -/
def remoteGetAll (userId : Nat) : M (List Task) := fun s =>
  if s.remoteDown then (Except.error (Err.storage "Supabase error"), s)
  else (Except.ok (sortByCreatedDesc (s.remoteRows.filter
        (fun t => t.user_id == userId && t.deleted_at == none))), s)

/-- Modelled from the spec: the body of SupabaseTaskRepository.getById is
elided in the source; the task or an explicit none, failing on network
outage. -/
def remoteGetById (id : Nat) : M (Option Task) := fun s =>
  if s.remoteDown then (Except.error (Err.storage "Supabase error"), s)
  else (Except.ok (s.remoteRows.find? (fun t => t.id == id)), s)

/-- SupabaseTaskRepository.create: inserts the payload with server
timestamps, version 1 and sync_status synced (the spread keeps the given
deleted_at); fails on network outage. -/
def remoteCreate (tc : TaskCreate) : M Task := fun s =>
  if s.remoteDown then (Except.error (Err.storage "Supabase error"), s)
  else
    let t : Task :=
      { id := s.nextId
        name := tc.name
        description := tc.description
        finished := tc.finished
        alarm_time := tc.alarm_time
        frecuency := tc.frecuency
        alarm_interval := tc.alarm_interval
        user_id := tc.user_id
        created_at := s.clock
        updated_at := s.clock
        deleted_at := tc.deleted_at
        version := 1
        sync_status := SyncStatus.synced
        sync_error := none }
    (Except.ok t, { s with remoteRows := s.remoteRows ++ [t],
                           nextId := s.nextId + 1, clock := s.clock + 1 })

/-- Modelled from the spec: the body of SupabaseTaskRepository.update is
elided in the source; per the contract it merges the changes into the stored
row, rejects absent ids with a not-found condition, and fails on network
outage. -/
def remoteUpdate (id : Nat) (u : TaskUpdate) : M Task := fun s =>
  if s.remoteDown then (Except.error (Err.storage "Supabase error"), s)
  else
    match s.remoteRows.find? (fun t => t.id == id) with
    | none => (Except.error (Err.notFound "Task not found"), s)
    | some t =>
        let t2 := applyUpdate t u
        let rows := s.remoteRows.map (fun r => if r.id == id then t2 else r)
        (Except.ok t2, { s with remoteRows := rows })

/-- Modelled from the spec: the body of SupabaseTaskRepository.delete is
elided in the source; physical removal, failing on network outage. -/
def remoteDelete (id : Nat) : M Unit := fun s =>
  if s.remoteDown then (Except.error (Err.storage "Supabase error"), s)
  else (Except.ok (), { s with remoteRows := s.remoteRows.filter (fun t => t.id != id) })

/-- SQLiteSyncQueue.enqueue: append with a generated id, retry_count 0,
created_at now, no error. -/
def queueEnqueue (ty : OpType) (taskId : Nat) (data : OpData)
    (previousVersion : Option Nat) : M Unit := fun s =>
  (Except.ok (), { s with
    queue := s.queue ++ [{ id := s.nextId, type := ty, taskId := taskId,
                           data := data, previousVersion := previousVersion,
                           retryCount := 0, createdAt := s.clock, error := none }],
    nextId := s.nextId + 1, clock := s.clock + 1 })

/-- The row selected by ORDER BY created_at ASC LIMIT 1, given a first row
and the rest: earliest creation timestamp, earliest row on ties. -/
def minByCreatedAt (op : SyncOperation) (ops : List SyncOperation) : SyncOperation :=
  ops.foldl (fun best o => if o.createdAt < best.createdAt then o else best) op

/-- SQLiteSyncQueue.dequeue: the operation with the earliest created_at, or
an explicit none when the queue is empty; reads only, removes nothing. -/
def queueDequeue : M (Option SyncOperation) := fun s =>
  match s.queue with
  | [] => (Except.ok none, s)
  | op :: ops => (Except.ok (some (minByCreatedAt op ops)), s)

/-- Modelled from the spec: the body of SQLiteSyncQueue.retry is elided in
the source; it increments retryCount and leaves the operation in place. -/
def queueRetry (opId : Nat) : M Unit := fun s =>
  (Except.ok (), { s with queue := s.queue.map (fun o =>
      if o.id == opId then { o with retryCount := o.retryCount + 1 } else o) })

/-- Modelled from the spec: the body of SQLiteSyncQueue.remove is elided in
the source; it deletes the operation, the only way an operation leaves the
queue on success. -/
def queueRemove (opId : Nat) : M Unit := fun s =>
  (Except.ok (), { s with queue := s.queue.filter (fun o => o.id != opId) })

/-- TaskService.syncCreateToRemote: strip the local bookkeeping fields, create
remotely, then mark the local row synced at its version. -/
def syncCreateToRemote (task : Task) : M Unit := do
  let _ ← remoteCreate (taskCreateOfTask task)
  localMarkSynced task.id (some task.version)

/-- TaskService.syncUpdateToRemote: optimistic locking, then remote update,
then mark local synced. -/
def syncUpdateToRemote (task : Task) (previousVersion : Nat) : M Unit := do
  let remoteTask ← remoteGetById task.id
  match remoteTask with
  | some rt =>
      if rt.version != previousVersion then
        throwErr (Err.conflict "Task was modified on another device")
      else pure ()
  | none => pure ()
  let _ ← remoteUpdate task.id
      { taskUpdateOfTask task with version := some task.version }
  localMarkSynced task.id (some task.version)

/-- TaskService.createTask: local create first; then, if sync enabled, either
immediate remote create with delete-and-rethrow rollback, or a CREATE
operation enqueued with the creation input as payload. -/
def createTask (cfg : TaskServiceConfig) (taskData : TaskCreate) : M Task := do
  let localTask ← localCreate taskData
  if cfg.enableSync then
    if cfg.syncOnWrite then
      catchE (syncCreateToRemote localTask) (fun e => do
        localDelete localTask.id
        throwErr (Err.transaction "Failed to sync task creation" e))
    else
      queueEnqueue OpType.CREATE localTask.id (OpData.ofCreate taskData) none
  pure localTask

/-- TaskService.updateTask: read the original for rollback, apply the changes
locally with version+1 and sync_status pending, then either immediate remote
sync with restore-and-rethrow rollback, or an UPDATE operation enqueued with
the raw updates and the previous version. -/
def updateTask (cfg : TaskServiceConfig) (id : Nat) (updates : TaskUpdate) : M Task := do
  let originalTask? ← localGetById id
  match originalTask? with
  | none => throwErr (Err.notFound "Task not found")
  | some originalTask => do
      let updatedTask ← localUpdate id
        { updates with version := some (originalTask.version + 1),
                       sync_status := some SyncStatus.pending }
      if cfg.enableSync && cfg.syncOnWrite then
        catchE (syncUpdateToRemote updatedTask originalTask.version) (fun e => do
          let _ ← localUpdate id
            { taskUpdateOfTask originalTask with version := some originalTask.version }
          throwErr (Err.transaction "Failed to sync task update" e))
      else if cfg.enableSync then
        queueEnqueue OpType.UPDATE id (OpData.ofUpdate updates)
          (some originalTask.version)
      pure updatedTask

/-- TaskService.deleteTask: soft delete through the full update path, setting
deleted_at to now and sync_status to pending. -/
def deleteTask (cfg : TaskServiceConfig) (id : Nat) : M Unit := do
  let now ← tick
  let _ ← updateTask cfg id
    { deleted_at := some (some now), sync_status := some SyncStatus.pending }
  pure ()

/-- The TaskCreate read out of the untyped payload when executeOperation
passes it to the remote create. -/
def OpData.toTaskCreate : OpData → TaskCreate
  | OpData.ofCreate c => c
  | OpData.ofTask t => taskCreateOfTask t
  | OpData.ofUpdate u =>
      { name := u.name.getD ""
        description := u.description.getD none
        finished := u.finished.getD false
        alarm_time := u.alarm_time.getD ""
        frecuency := u.frecuency.getD Frecuency.single
        alarm_interval := u.alarm_interval.getD 0
        user_id := 0
        deleted_at := u.deleted_at.getD none }

/-- The TaskUpdate read out of the untyped payload when executeOperation
passes it to the remote update. -/
def OpData.toTaskUpdate : OpData → TaskUpdate
  | OpData.ofUpdate u => u
  | OpData.ofTask t => taskUpdateOfTask t
  | OpData.ofCreate c =>
      { name := some c.name
        description := some c.description
        finished := some c.finished
        alarm_time := some c.alarm_time
        frecuency := some c.frecuency
        alarm_interval := some c.alarm_interval
        deleted_at := some c.deleted_at }

/-- The version property read off the untyped payload (operation.data.version
in the source): undefined for a TaskCreate payload, the optional version
field of a TaskUpdate payload, the stored version of a whole-Task payload. -/
def OpData.version : OpData → Option Nat
  | OpData.ofCreate _ => none
  | OpData.ofUpdate u => u.version
  | OpData.ofTask t => some t.version

/-- SyncService.executeOperation: apply the operation against the remote
repository by kind, then mark the local task synced at the version carried by
the payload. -/
def executeOperation (operation : SyncOperation) : M Unit := do
  match operation.type with
  | OpType.CREATE => do
      let _ ← remoteCreate operation.data.toTaskCreate
      pure ()
  | OpType.UPDATE => do
      let _ ← remoteUpdate operation.taskId operation.data.toTaskUpdate
      pure ()
  | OpType.DELETE => remoteDelete operation.taskId
  localMarkSynced operation.taskId operation.data.version

/-- One pass of SyncService.processQueue: dequeue one operation; on success
of its application remove it; on failure retry while retryCount is below
maxRetries, else mark the owning task errored. The trailing setTimeout
self-reschedule of the source is modelled by running this step repeatedly. -/
def processQueue (cfg : SyncConfig) : M Unit := do
  let running ← getRunning
  if !running then pure ()
  else do
    let operation? ← queueDequeue
    match operation? with
    | none => pure ()
    | some operation =>
        catchE (do
            executeOperation operation
            queueRemove operation.id)
          (fun e =>
            if operation.retryCount < cfg.maxRetries then
              queueRetry operation.id
            else
              localMarkError operation.taskId (errMessage e))

/-- Membership of an id in the fixed map the merge loops test against. -/
def hasId (l : List Task) (id : Nat) : Bool :=
  l.any (fun t => t.id == id)

/-- Lookup in the fixed map the merge loops read from. -/
def findById (l : List Task) (id : Nat) : Option Task :=
  l.find? (fun t => t.id == id)

/-- First loop of SyncService.mergeChanges: every remote task whose id the
initial local map lacks is created locally. -/
def mergeLoop1 (localL : List Task) : List Task → M Unit
  | [] => pure ()
  | r :: rs => do
      if !(hasId localL r.id) then
        let _ ← localCreate (taskCreateOfTask r)
        pure ()
      mergeLoop1 localL rs

/-- Second loop of SyncService.mergeChanges: every local task whose id the
initial remote map lacks, with sync_status pending, gets a CREATE operation
enqueued carrying the whole local task. -/
def mergeLoop2 (remoteL : List Task) : List Task → M Unit
  | [] => pure ()
  | l :: ls => do
      if !(hasId remoteL l.id) && l.sync_status == SyncStatus.pending then
        queueEnqueue OpType.CREATE l.id (OpData.ofTask l) none
      mergeLoop2 remoteL ls

/-- Third loop of SyncService.mergeChanges: for every id on both sides with
differing versions, overwrite local with the remote record when the remote
updated_at is strictly later, else enqueue an UPDATE carrying the whole local
task and the remote version as previousVersion. -/
def mergeLoop3 (remoteL : List Task) : List Task → M Unit
  | [] => pure ()
  | l :: ls => do
      match findById remoteL l.id with
      | some r =>
          if l.version != r.version then
            if r.updated_at > l.updated_at then do
              let _ ← localUpdate l.id (taskUpdateOfTask r)
              pure ()
            else
              queueEnqueue OpType.UPDATE l.id (OpData.ofTask l) (some r.version)
          else pure ()
      | none => pure ()
      mergeLoop3 remoteL ls

/-- SyncService.mergeChanges: the three sweeps over the two fixed maps. -/
def mergeChanges (localL remoteL : List Task) : M Unit := do
  mergeLoop1 localL remoteL
  mergeLoop2 remoteL localL
  mergeLoop3 remoteL localL

/-- SyncService.fullSync: pull both sides for the user, then merge. -/
def fullSync (userId : Nat) : M Unit := do
  let remoteTasks ← remoteGetAll userId
  let localTasks ← localGetAll userId
  mergeChanges localTasks remoteTasks

/-- The ConflictResolution strategy enum. -/
inductive ConflictResolution where
  | USE_LOCAL
  | USE_REMOTE
  | MERGE
  | MANUAL
deriving DecidableEq

/-- Modelled from the spec: the body of ConflictResolver.merge is an
unimplemented stub in the source (a comment only); per the spec, each
attribute comes from the side with the later updated_at and the version of
the result is max of both versions plus one. -/
def ConflictResolver.merge (localTask remoteTask : Task) : Task :=
  let base := if remoteTask.updated_at > localTask.updated_at then remoteTask else localTask
  { base with version := max localTask.version remoteTask.version + 1 }

/-- ConflictResolver.resolve: dispatch on the strategy. -/
def ConflictResolver.resolve (localTask remoteTask : Task)
    (strategy : ConflictResolution) : Except Err Task :=
  match strategy with
  | ConflictResolution.USE_LOCAL => Except.ok localTask
  | ConflictResolution.USE_REMOTE => Except.ok remoteTask
  | ConflictResolution.MERGE => Except.ok (ConflictResolver.merge localTask remoteTask)
  | ConflictResolution.MANUAL => Except.error (Err.manualConflict localTask remoteTask)

/-- Agreement of two tasks on the seven creation-payload fields, the shape in
which a repository create preserves its input. -/
def sameCreateFields (a b : Task) : Prop :=
  a.name = b.name ∧ a.description = b.description ∧ a.finished = b.finished ∧
  a.alarm_time = b.alarm_time ∧ a.frecuency = b.frecuency ∧
  a.alarm_interval = b.alarm_interval ∧ a.user_id = b.user_id

instance (a b : Task) : Decidable (sameCreateFields a b) := by
  unfold sameCreateFields
  infer_instance

/-- Agreement of two tasks on every attribute except version, the shape the
merge strategy promises for the winning side. -/
def sameAttrFields (a b : Task) : Prop :=
  a.id = b.id ∧ a.name = b.name ∧ a.description = b.description ∧
  a.finished = b.finished ∧ a.alarm_time = b.alarm_time ∧
  a.frecuency = b.frecuency ∧ a.alarm_interval = b.alarm_interval ∧
  a.user_id = b.user_id ∧ a.created_at = b.created_at ∧
  a.updated_at = b.updated_at ∧ a.deleted_at = b.deleted_at ∧
  a.sync_status = b.sync_status

instance (a b : Task) : Decidable (sameAttrFields a b) := by
  unfold sameAttrFields
  infer_instance

/-- A concrete task for the example states of the witnesses below. -/
def exTask : Task :=
  { id := 1
    name := "Buy milk"
    description := none
    finished := false
    alarm_time := "08:00"
    frecuency := Frecuency.single
    alarm_interval := 5
    user_id := 7
    created_at := 0
    updated_at := 0
    deleted_at := none
    version := 1
    sync_status := SyncStatus.synced
    sync_error := none }

/-- The same task as stored remotely after another device advanced it. -/
def exRemote : Task := { exTask with version := 2, updated_at := 3 }

/-- A concrete creation input. -/
def exCreate : TaskCreate :=
  { name := "Buy milk"
    description := none
    finished := false
    alarm_time := "08:00"
    frecuency := Frecuency.single
    alarm_interval := 5
    user_id := 7
    deleted_at := none }

/-- A healthy world: the task local at version 1, remote advanced to 2. -/
def exSt : St :=
  { localRows := [exTask]
    remoteRows := [exRemote]
    queue := []
    nextId := 10
    clock := 100
    remoteDown := false
    running := true }

/-- Immediate-sync configuration. -/
def exCfgW : TaskServiceConfig :=
  { enableSync := true, syncOnWrite := true, retryAttempts := 3, retryDelayMs := 1 }

/-- Background-sync configuration. -/
def exCfgQ : TaskServiceConfig :=
  { enableSync := true, syncOnWrite := false, retryAttempts := 3, retryDelayMs := 1 }

/-- Daemon configuration with maxRetries 2. -/
def exSyncCfg : SyncConfig := { intervalMs := 1000, maxRetries := 2 }

/-- A queued operation that has already been retried maxRetries times. -/
def exOp : SyncOperation :=
  { id := 5
    type := OpType.UPDATE
    taskId := 1
    data := OpData.ofUpdate { name := some "z" }
    previousVersion := some 1
    retryCount := 2
    createdAt := 50
    error := none }

/-- A world with the exhausted operation queued and the remote unreachable. -/
def exStQueue : St := { exSt with queue := [exOp], remoteDown := true }

/-- A local task at version 2 whose remote copy has moved on. -/
def exLocal2 : Task := { exTask with version := 2, updated_at := 2 }

/-- A pending local task the remote store has never seen. -/
def exLocalB : Task := { exTask with id := 2, sync_status := SyncStatus.pending }

/-- The remote copy of the first task at version 3, updated later. -/
def exRemote3 : Task := { exTask with version := 3, updated_at := 3 }

/-- A remote task absent from the local store. -/
def exRemoteNew : Task := { exTask with id := 3, name := "From other device" }

/-- A world ready for a reconciliation sweep. -/
def exStSync : St :=
  { localRows := [exLocal2, exLocalB]
    remoteRows := [exRemote3, exRemoteNew]
    queue := []
    nextId := 10
    clock := 100
    remoteDown := false
    running := true }

theorem bind_def {α β : Type} (x : M α) (f : α → M β) (s : St) :
    (x >>= f) s =
      match x s with
      | (Except.ok a, s1) => f a s1
      | (Except.error e, s1) => (Except.error e, s1) := rfl

theorem pure_def {α : Type} (a : α) (s : St) : (pure a : M α) s = (Except.ok a, s) := rfl

theorem applyUpdate_id (t : Task) (u : TaskUpdate) : (applyUpdate t u).id = t.id := rfl

/-- Undoing a local update by spreading the original record restores it
exactly, because every updatable field is present in the spread and the
remaining fields were never touched. -/
theorem applyUpdate_restore (t : Task) (u : TaskUpdate) :
    applyUpdate (applyUpdate t u)
      { taskUpdateOfTask t with version := some t.version } = t := by
  cases t
  simp [applyUpdate, taskUpdateOfTask]

/-- Searching by id commutes with a map that preserves ids. -/
theorem find?_map_pres (g : Task → Task) (hg : ∀ x, (g x).id = x.id)
    (rows : List Task) (i : Nat) :
    (rows.map g).find? (fun x => x.id == i) =
      (rows.find? (fun x => x.id == i)).map g := by
  induction rows with
  | nil => rfl
  | cons x xs ih =>
      by_cases h : x.id = i
      · simp [List.find?_cons_of_pos, h, hg]
      · have h1 : ((g x).id == i) = false := by simp [hg, h]
        have h2 : (x.id == i) = false := by simp [h]
        simp only [List.map_cons, List.find?_cons, h1, h2]
        exact ih

/-- After replacing the rows of a given id by a record of that id, the search
for that id returns the replacement whenever a row with the id existed. -/
theorem find?_map_replace {rows : List Task} {i : Nat} {t : Task}
    (hfound : rows.find? (fun x => x.id == i) = some t) (x2 : Task) (hx : x2.id = i) :
    (rows.map (fun r => if r.id == i then x2 else r)).find? (fun x => x.id == i) =
      some x2 := by
  induction rows with
  | nil => simp at hfound
  | cons y ys ih =>
      by_cases h : y.id = i
      · have h1 : (if (y.id == i) = true then x2 else y) = x2 := by simp [h]
        simp only [List.map_cons, h1]
        exact List.find?_cons_of_pos _ (by simp [hx])
      · have h1 : (if (y.id == i) = true then x2 else y) = y := by simp [h]
        simp only [List.map_cons, h1]
        rw [List.find?_cons_of_neg _ (by simp [h])]
        rw [List.find?_cons_of_neg _ (by simp [h])] at hfound
        exact ih hfound

/-- Rows whose id differs from the replaced one are untouched by the
replacement map, as witnessed by the search for any other id. -/
theorem find?_map_replace_ne {rows : List Task} {i j : Nat} (x2 : Task)
    (hx : x2.id = i) (hij : j ≠ i) :
    (rows.map (fun r => if r.id == i then x2 else r)).find? (fun x => x.id == j) =
      rows.find? (fun x => x.id == j) := by
  induction rows with
  | nil => rfl
  | cons y ys ih =>
      by_cases h : y.id = i
      · have h1 : (if (y.id == i) = true then x2 else y) = x2 := by simp [h]
        simp only [List.map_cons, h1]
        rw [List.find?_cons_of_neg _ (by simp [hx]; exact fun hc => hij hc.symm)]
        rw [List.find?_cons_of_neg _ (by simp [h]; exact fun hc => hij hc.symm)]
        exact ih
      · have h1 : (if (y.id == i) = true then x2 else y) = y := by simp [h]
        simp only [List.map_cons, h1]
        by_cases hyj : y.id = j
        · rw [List.find?_cons_of_pos _ (by simp [hyj])]
          rw [List.find?_cons_of_pos _ (by simp [hyj])]
        · rw [List.find?_cons_of_neg _ (by simp [hyj])]
          rw [List.find?_cons_of_neg _ (by simp [hyj])]
          exact ih

/-- Membership survives a replacement map when the id differs. -/
theorem mem_map_replace_of_ne {rows : List Task} {i : Nat} {t : Task} (x2 : Task)
    (hm : t ∈ rows) (ht : t.id ≠ i) :
    t ∈ rows.map (fun r => if r.id == i then x2 else r) := by
  have : t = (fun r => if r.id == i then x2 else r) t := by simp [ht]
  rw [this]
  exact List.mem_map_of_mem _ hm

/-- With id-unique rows, any row carrying the found id is the found row. -/
theorem eq_of_mem_of_find?_nodup {rows : List Task} {i : Nat} {t : Task}
    (hfound : rows.find? (fun x => x.id == i) = some t)
    (hnd : (rows.map Task.id).Nodup) :
    ∀ r ∈ rows, r.id = i → r = t := by
  induction rows with
  | nil => simp at hfound
  | cons y ys ih =>
      intro r hr hri
      simp only [List.map_cons, List.nodup_cons] at hnd
      by_cases h : y.id = i
      · rw [List.find?_cons_of_pos _ (by simp [h])] at hfound
        cases hfound
        rcases List.mem_cons.mp hr with h1 | h1
        · exact h1
        · exfalso
          apply hnd.1
          have hmem : r.id ∈ ys.map Task.id := List.mem_map_of_mem Task.id h1
          rwa [hri, ← h] at hmem
      · rw [List.find?_cons_of_neg _ (by simp [h])] at hfound
        rcases List.mem_cons.mp hr with h1 | h1
        · exact absurd (h1 ▸ hri) h
        · exact ih hfound hnd.2 r h1 hri

/-- Membership is preserved by the insertion step of the getAll ordering. -/
theorem mem_insertByCreatedDesc {a t : Task} {l : List Task} :
    a ∈ insertByCreatedDesc t l ↔ a = t ∨ a ∈ l := by
  induction l with
  | nil => simp [insertByCreatedDesc]
  | cons x xs ih =>
      by_cases h : t.created_at ≤ x.created_at
      · simp only [insertByCreatedDesc, if_pos h, List.mem_cons, ih]
        tauto
      · simp only [insertByCreatedDesc, if_neg h, List.mem_cons]

/-- The getAll ordering is a permutation as far as membership goes. -/
theorem mem_sortByCreatedDesc {a : Task} {l : List Task} :
    a ∈ sortByCreatedDesc l ↔ a ∈ l := by
  induction l with
  | nil => simp [sortByCreatedDesc]
  | cons x xs ih =>
      simp only [sortByCreatedDesc, mem_insertByCreatedDesc, List.mem_cons, ih]

/-- The fold behind dequeue returns a queued row of minimal created_at. -/
theorem minByCreatedAt_spec (ops : List SyncOperation) (best : SyncOperation) :
    (minByCreatedAt best ops = best ∨ minByCreatedAt best ops ∈ ops) ∧
    (minByCreatedAt best ops).createdAt ≤ best.createdAt ∧
    ∀ o ∈ ops, (minByCreatedAt best ops).createdAt ≤ o.createdAt := by
  induction ops generalizing best with
  | nil => simp [minByCreatedAt]
  | cons x xs ih =>
      have hstep : minByCreatedAt best (x :: xs) =
          minByCreatedAt (if x.createdAt < best.createdAt then x else best) xs := rfl
      have hx := ih (if x.createdAt < best.createdAt then x else best)
      rw [hstep]
      by_cases hc : x.createdAt < best.createdAt
      · rw [if_pos hc] at hx ⊢
        refine ⟨?_, ?_, ?_⟩
        · rcases hx.1 with h | h
          · right
            rw [h]
            exact List.mem_cons_self x xs
          · right
            exact List.mem_cons_of_mem x h
        · exact le_trans hx.2.1 (le_of_lt hc)
        · intro o ho
          rcases List.mem_cons.mp ho with h | h
          · rw [h]
            exact hx.2.1
          · exact hx.2.2 o h
      · rw [if_neg hc] at hx ⊢
        refine ⟨?_, ?_, ?_⟩
        · rcases hx.1 with h | h
          · left
            exact h
          · right
            exact List.mem_cons_of_mem x h
        · exact hx.2.1
        · intro o ho
          rcases List.mem_cons.mp ho with h | h
          · rw [h]
            exact le_trans hx.2.1 (le_of_not_lt hc)
          · exact hx.2.2 o h

/-- Claim C10: for every id absent from the local repository, deleteTask
fails with NotFoundError before performing any write — local rows, remote
rows and the queue are unchanged — because deleteTask delegates to
updateTask, whose first step reads the local record and throws when it is
none. -/
theorem C10_deleteTask_absent_id (cfg : TaskServiceConfig) (s : St) (id : Nat)
    (h : s.localRows.find? (fun t => t.id == id) = none) :
    (deleteTask cfg id s).1 = Except.error (Err.notFound "Task not found") ∧
    ((deleteTask cfg id s).2).localRows = s.localRows ∧
    ((deleteTask cfg id s).2).remoteRows = s.remoteRows ∧
    ((deleteTask cfg id s).2).queue = s.queue := by
  refine ⟨?_, ?_, ?_, ?_⟩ <;>
    simp [deleteTask, updateTask, tick, localGetById, bind_def, throwErr, h]

/-- Witness for C10 at a concrete world: deleting the absent id 999. -/
theorem C10_witness :
    (deleteTask exCfgW 999 exSt).1 = Except.error (Err.notFound "Task not found") ∧
    ((deleteTask exCfgW 999 exSt).2).localRows = exSt.localRows ∧
    ((deleteTask exCfgW 999 exSt).2).remoteRows = exSt.remoteRows ∧
    ((deleteTask exCfgW 999 exSt).2).queue = exSt.queue :=
  C10_deleteTask_absent_id exCfgW exSt 999 (by decide)

/-- Claim C3: with sync enabled, syncOnWrite set, and the remote create
failing, createTask deletes the just-created local record and throws a
TransactionError wrapping the underlying cause, so getById against the local
repository for the new id afterwards returns not-found. -/
theorem C3_createTask_rollback (cfg : TaskServiceConfig) (s : St)
    (taskData : TaskCreate) (hE : cfg.enableSync = true)
    (hW : cfg.syncOnWrite = true) (hD : s.remoteDown = true) :
    (createTask cfg taskData s).1 =
      Except.error (Err.transaction "Failed to sync task creation"
        (Err.storage "Supabase error")) ∧
    (localGetById s.nextId ((createTask cfg taskData s).2)).1 = Except.ok none := by
  refine ⟨?_, ?_⟩ <;>
    simp [createTask, localCreate, bind_def, hE, hW, catchE, syncCreateToRemote,
          remoteCreate, hD, localDelete, throwErr, taskCreateOfTask, localGetById,
          List.find?_eq_none, List.mem_filter]

/-- Witness for C3 at a concrete world with the remote unreachable. -/
theorem C3_witness :
    (createTask exCfgW exCreate { exSt with remoteDown := true }).1 =
      Except.error (Err.transaction "Failed to sync task creation"
        (Err.storage "Supabase error")) ∧
    (localGetById 10 ((createTask exCfgW exCreate { exSt with remoteDown := true }).2)).1 =
      Except.ok none :=
  C3_createTask_rollback exCfgW { exSt with remoteDown := true } exCreate rfl rfl rfl

/-- Counterexample to claim C1 as stated: in a world where the local task is
synced at version 1 and the remote copy has advanced to version 2, the
immediate-sync updateTask does not surface a ConflictError to its caller; it
surfaces a TransactionError wrapping the ConflictError. -/
theorem C1_counterexample :
    (updateTask exCfgW 1 { name := some "b" } exSt).1 =
      Except.error (Err.transaction "Failed to sync task update"
        (Err.conflict "Task was modified on another device")) ∧
    (updateTask exCfgW 1 { name := some "b" } exSt).1 ≠
      Except.error (Err.conflict "Task was modified on another device") := by
  decide

/-- Claim C1 as amended: when the local copy was synced at version N and the
remote copy has advanced to a different version, updateTask with syncOnWrite
fails with a TransactionError wrapping the ConflictError thrown by the
optimistic-locking check, and afterwards the local record equals its
pre-update snapshot (same fields, same version, same sync status), with the
remote rows and the queue untouched. -/
theorem syncUpdateToRemote_conflict (task : Task) (pv : Nat) (s2 : St) (rt : Task)
    (hD : s2.remoteDown = false)
    (hrem : s2.remoteRows.find? (fun x => x.id == task.id) = some rt)
    (hne : rt.version ≠ pv) :
    syncUpdateToRemote task pv s2 =
      (Except.error (Err.conflict "Task was modified on another device"), s2) := by
  have hv : (rt.version != pv) = true := bne_iff_ne.mpr hne
  simp only [syncUpdateToRemote, bind_def, remoteGetById, hD, hrem, hv, throwErr,
             pure_def, Bool.false_eq_true, if_false, if_true]

/-- Claim C1 as amended: when the local copy was synced at version N and the
remote copy has advanced to a different version, updateTask with syncOnWrite
fails with a TransactionError wrapping the ConflictError thrown by the
optimistic-locking check, and afterwards the local record equals its
pre-update snapshot (same fields, same version, same sync status), with the
remote rows and the queue untouched. -/
theorem C1_updateTask_conflict_wrapped (cfg : TaskServiceConfig) (s : St)
    (id : Nat) (t rt : Task) (updates : TaskUpdate)
    (hE : cfg.enableSync = true) (hW : cfg.syncOnWrite = true)
    (hD : s.remoteDown = false)
    (hloc : s.localRows.find? (fun x => x.id == id) = some t)
    (hrem : s.remoteRows.find? (fun x => x.id == id) = some rt)
    (hver : rt.version ≠ t.version) :
    (updateTask cfg id updates s).1 =
      Except.error (Err.transaction "Failed to sync task update"
        (Err.conflict "Task was modified on another device")) ∧
    ((updateTask cfg id updates s).2).localRows.find? (fun x => x.id == id) =
      some t ∧
    ((updateTask cfg id updates s).2).remoteRows = s.remoteRows ∧
    ((updateTask cfg id updates s).2).queue = s.queue := by
  have hid : t.id = id := by simpa using List.find?_some hloc
  have ht1id :
      (applyUpdate t
        { updates with
            version := some (t.version + 1)
            sync_status := some SyncStatus.pending }).id = id := by
    rw [applyUpdate_id, hid]
  have hf1 := find?_map_replace hloc _ ht1id
  have hrest := applyUpdate_restore t
    { updates with
        version := some (t.version + 1)
        sync_status := some SyncStatus.pending }
  have hf2 := find?_map_replace hf1 t hid
  have hremX : s.remoteRows.find? (fun x => x.id ==
      (applyUpdate t
        { updates with
            version := some (t.version + 1)
            sync_status := some SyncStatus.pending }).id) = some rt := by
    simp only [ht1id]
    exact hrem
  have hsync := syncUpdateToRemote_conflict
    (applyUpdate t
      { updates with
          version := some (t.version + 1)
          sync_status := some SyncStatus.pending })
    t.version
    { s with localRows := s.localRows.map (fun r =>
        if r.id == id then
          applyUpdate t
            { updates with
                version := some (t.version + 1)
                sync_status := some SyncStatus.pending }
        else r) }
    rt hD hremX hver
  have hrun : updateTask cfg id updates s =
      (Except.error (Err.transaction "Failed to sync task update"
        (Err.conflict "Task was modified on another device")),
       { s with localRows :=
           (s.localRows.map (fun r =>
             if r.id == id then
               applyUpdate t
                 { updates with
                     version := some (t.version + 1)
                     sync_status := some SyncStatus.pending }
             else r)).map (fun r => if r.id == id then t else r) }) := by
    simp only [updateTask, bind_def, localGetById, hloc, localUpdate, hE, hW,
               Bool.and_self, if_true, catchE, hsync, hf1, hrest, throwErr,
               pure_def]
  rw [hrun]
  exact ⟨rfl, hf2, rfl, rfl⟩

/-- Witness for the amended C1 at a concrete world: local synced at version
1, remote advanced to version 2. -/
theorem C1_witness :
    (updateTask exCfgW 1 { name := some "b" } exSt).1 =
      Except.error (Err.transaction "Failed to sync task update"
        (Err.conflict "Task was modified on another device")) ∧
    ((updateTask exCfgW 1 { name := some "b" } exSt).2).localRows.find?
        (fun x => x.id == 1) = some exTask ∧
    ((updateTask exCfgW 1 { name := some "b" } exSt).2).remoteRows = exSt.remoteRows ∧
    ((updateTask exCfgW 1 { name := some "b" } exSt).2).queue = exSt.queue :=
  C1_updateTask_conflict_wrapped exCfgW exSt 1 exTask exRemote
    { name := some "b" } rfl rfl rfl (by decide) (by decide) (by decide)

/-- Claim C7: the conflict resolver returns the local task unchanged under
USE_LOCAL, the remote task unchanged under USE_REMOTE, fails with a
ManualConflictError carrying both versions under MANUAL, and under MERGE
produces a record whose version is the maximum of both versions plus one and
whose every other attribute comes from the side with the later updated_at. -/
theorem C7_resolve_contract (l r : Task) :
    ConflictResolver.resolve l r ConflictResolution.USE_LOCAL = Except.ok l ∧
    ConflictResolver.resolve l r ConflictResolution.USE_REMOTE = Except.ok r ∧
    ConflictResolver.resolve l r ConflictResolution.MANUAL =
      Except.error (Err.manualConflict l r) ∧
    ConflictResolver.resolve l r ConflictResolution.MERGE =
      Except.ok (ConflictResolver.merge l r) ∧
    (ConflictResolver.merge l r).version = max l.version r.version + 1 ∧
    (if r.updated_at > l.updated_at
     then sameAttrFields (ConflictResolver.merge l r) r
     else sameAttrFields (ConflictResolver.merge l r) l) := by
  refine ⟨rfl, rfl, rfl, rfl, ?_, ?_⟩
  · simp [ConflictResolver.merge]
  · by_cases h : r.updated_at > l.updated_at
    · simp [ConflictResolver.merge, h, sameAttrFields]
    · simp [ConflictResolver.merge, h, sameAttrFields]

/-- Claim C6: dequeue returns an operation of earliest creation timestamp on
a non-empty queue and an explicit none on an empty one, in both cases leaving
the whole world unchanged; enqueue appends a record with the freshly
generated id, retryCount 0 and the current timestamp, touching nothing
else. -/
theorem C6_queue_contract (s : St) :
    (s.queue = [] → queueDequeue s = (Except.ok none, s)) ∧
    (s.queue ≠ [] → ∃ m, queueDequeue s = (Except.ok (some m), s) ∧
        m ∈ s.queue ∧ ∀ o ∈ s.queue, m.createdAt ≤ o.createdAt) ∧
    (∀ ty tid d pv, queueEnqueue ty tid d pv s =
      (Except.ok (), { s with
        queue := s.queue ++
          [{ id := s.nextId
             type := ty
             taskId := tid
             data := d
             previousVersion := pv
             retryCount := 0
             createdAt := s.clock
             error := none }]
        nextId := s.nextId + 1
        clock := s.clock + 1 })) := by
  refine ⟨?_, ?_, ?_⟩
  · intro h
    simp [queueDequeue, h]
  · intro h
    cases hq : s.queue with
    | nil => exact absurd hq h
    | cons op ops =>
        refine ⟨minByCreatedAt op ops, ?_, ?_, ?_⟩
        · simp [queueDequeue, hq]
        · rcases (minByCreatedAt_spec ops op).1 with h1 | h1
          · rw [h1]
            exact List.mem_cons_self op ops
          · exact List.mem_cons_of_mem op h1
        · intro o ho
          rcases List.mem_cons.mp ho with h1 | h1
          · rw [h1]
            exact (minByCreatedAt_spec ops op).2.1
          · exact (minByCreatedAt_spec ops op).2.2 o h1
  · intro ty tid d pv
    rfl

/-- Witness for C6 at concrete worlds: an empty queue yields none, the
two-element queue yields the earlier operation without removing anything,
and a concrete enqueue appends the expected row. -/
theorem C6_witness :
    queueDequeue { exSt with queue := [] } = (Except.ok none, { exSt with queue := [] }) ∧
    (∃ m, queueDequeue exStQueue = (Except.ok (some m), exStQueue) ∧
       m ∈ exStQueue.queue ∧ ∀ o ∈ exStQueue.queue, m.createdAt ≤ o.createdAt) ∧
    queueEnqueue OpType.CREATE 1 (OpData.ofCreate exCreate) none exSt =
      (Except.ok (), { exSt with
        queue := exSt.queue ++
          [{ id := exSt.nextId
             type := OpType.CREATE
             taskId := 1
             data := OpData.ofCreate exCreate
             previousVersion := none
             retryCount := 0
             createdAt := exSt.clock
             error := none }]
        nextId := exSt.nextId + 1
        clock := exSt.clock + 1 }) :=
  ⟨(C6_queue_contract { exSt with queue := [] }).1 rfl,
   (C6_queue_contract exStQueue).2.1 (by decide),
   (C6_queue_contract exSt).2.2 OpType.CREATE 1 (OpData.ofCreate exCreate) none⟩

theorem markSyncedRow_id (i : Nat) (v : Option Nat) (x : Task) :
    (markSyncedRow i v x).id = x.id := by
  unfold markSyncedRow
  split
  · rfl
  · rfl

theorem markSyncedRow_version (i : Nat) (v : Option Nat) (x : Task) :
    (markSyncedRow i v x).version = x.version := by
  unfold markSyncedRow
  split
  · rfl
  · rfl

/-- markSynced called with an undefined version is a no-op, because no stored
version equals undefined. -/
theorem markSyncedRow_none (i : Nat) (x : Task) : markSyncedRow i none x = x := by
  unfold markSyncedRow
  simp

theorem syncUpdateToRemote_ok_localRows (task : Task) (pv : Nat) (sIn : St)
    (a : Unit) (sOut : St)
    (h : syncUpdateToRemote task pv sIn = (Except.ok a, sOut)) :
    sOut.localRows = sIn.localRows.map (markSyncedRow task.id (some task.version)) := by
  simp only [syncUpdateToRemote, bind_def, remoteGetById, throwErr, pure_def] at h
  split at h
  · rename_i x a1 s1 heq
    split at heq
    · simp at heq
    · simp only [Prod.mk.injEq, Except.ok.injEq] at heq
      obtain ⟨ha1, hs1⟩ := heq
      subst hs1
      split at h
      · rename_i rt
        split at h
        · simp only [bind_def, throwErr] at h
          simp at h
        · simp only [bind_def, remoteUpdate, localMarkSynced, pure_def] at h
          split at h
          · rename_i x2 a2 s4 heq
            split at heq
            · simp at heq
            · split at heq
              · simp at heq
              · simp only [Prod.mk.injEq, Except.ok.injEq] at heq
                obtain ⟨ha2, hs4⟩ := heq
                subst hs4
                cases h
                rfl
          · rename_i x2 e s4 heq
            simp at h
      · simp only [bind_def, remoteUpdate, localMarkSynced, pure_def] at h
        split at h
        · rename_i x2 a2 s4 heq
          split at heq
          · simp at heq
          · split at heq
            · simp at heq
            · simp only [Prod.mk.injEq, Except.ok.injEq] at heq
              obtain ⟨ha2, hs4⟩ := heq
              subst hs4
              cases h
              rfl
        · rename_i x2 e s4 heq
          simp at h
  · rename_i x e s1 heq
    simp at h

/-- Claim C4: every successful updateTask call writes the local record with
version exactly one above the previously stored version and sync_status
pending; the stored row after the call carries that incremented version, so
version strictly increases by one per mutation. -/
theorem C4_update_version_increment (cfg : TaskServiceConfig) (s : St) (id : Nat)
    (t : Task) (updates : TaskUpdate) (u : Task) (s2 : St)
    (hloc : s.localRows.find? (fun x => x.id == id) = some t)
    (hrun : updateTask cfg id updates s = (Except.ok u, s2)) :
    u.version = t.version + 1 ∧ u.sync_status = SyncStatus.pending ∧
    ∃ row, s2.localRows.find? (fun x => x.id == id) = some row ∧
      row.version = t.version + 1 := by
  have hid : t.id = id := by simpa using List.find?_some hloc
  have ht1id :
      (applyUpdate t
        { updates with
            version := some (t.version + 1)
            sync_status := some SyncStatus.pending }).id = id := by
    rw [applyUpdate_id, hid]
  have hf1 := find?_map_replace hloc _ ht1id
  simp only [updateTask, bind_def, localGetById, hloc, localUpdate,
             catchE, pure_def] at hrun
  split at hrun
  · -- immediate-sync branch
    simp only [bind_def, catchE, pure_def] at hrun
    split at hrun
    · -- the whole call succeeded
      rename_i x a s1 heq
      simp only [Prod.mk.injEq, Except.ok.injEq] at hrun
      obtain ⟨hu, hs⟩ := hrun
      split at heq
      · rename_i r s3 heq2
        simp only [Prod.mk.injEq, Except.ok.injEq] at heq
        obtain ⟨_, hs3⟩ := heq
        have hrows := syncUpdateToRemote_ok_localRows _ _ _ _ _ heq2
        refine ⟨by rw [← hu]; rfl, by rw [← hu]; rfl, ?_⟩
        have hfind : s2.localRows.find? (fun x => x.id == id) =
            some (markSyncedRow
              (applyUpdate t
                { updates with
                    version := some (t.version + 1)
                    sync_status := some SyncStatus.pending }).id
              (some (applyUpdate t
                { updates with
                    version := some (t.version + 1)
                    sync_status := some SyncStatus.pending }).version)
              (applyUpdate t
                { updates with
                    version := some (t.version + 1)
                    sync_status := some SyncStatus.pending })) := by
          rw [← hs, ← hs3, hrows]
          rw [find?_map_pres _ (markSyncedRow_id _ _) _ id]
          rw [show ({ s with localRows := s.localRows.map (fun r =>
                if r.id == id then
                  applyUpdate t
                    { updates with
                        version := some (t.version + 1)
                        sync_status := some SyncStatus.pending }
                else r) } : St).localRows = s.localRows.map (fun r =>
                if r.id == id then
                  applyUpdate t
                    { updates with
                        version := some (t.version + 1)
                        sync_status := some SyncStatus.pending }
                else r) from rfl]
          rw [hf1]
          rfl
        exact ⟨_, hfind, by rw [markSyncedRow_version]; rfl⟩
      · rename_i e s3 heq2
        simp only [bind_def, localUpdate, throwErr] at heq
        split at heq
        · simp at heq
        · simp at heq
    · simp at hrun
  · -- queued or sync-disabled branch
    split at hrun
    · simp only [bind_def, queueEnqueue, pure_def, Prod.mk.injEq,
                 Except.ok.injEq] at hrun
      obtain ⟨hu, hs⟩ := hrun
      refine ⟨by rw [← hu]; rfl, by rw [← hu]; rfl, ?_⟩
      have hfind : s2.localRows.find? (fun x => x.id == id) =
          some (applyUpdate t
            { updates with
                version := some (t.version + 1)
                sync_status := some SyncStatus.pending }) := by
        rw [← hs]
        exact hf1
      exact ⟨_, hfind, rfl⟩
    · simp only [bind_def, pure_def, Prod.mk.injEq, Except.ok.injEq] at hrun
      obtain ⟨hu, hs⟩ := hrun
      refine ⟨by rw [← hu]; rfl, by rw [← hu]; rfl, ?_⟩
      have hfind : s2.localRows.find? (fun x => x.id == id) =
          some (applyUpdate t
            { updates with
                version := some (t.version + 1)
                sync_status := some SyncStatus.pending }) := by
        rw [← hs]
        exact hf1
      exact ⟨_, hfind, rfl⟩

/-- Witness for C4 at a concrete world: a queued-mode update of the stored
version-1 task yields version 2, status pending. -/
theorem C4_witness :
    (updateTask exCfgQ 1 { name := some "n" } exSt).2.localRows.map Task.version =
        [2] ∧
    ∀ u s2, updateTask exCfgQ 1 { name := some "n" } exSt = (Except.ok u, s2) →
      u.version = 2 ∧ u.sync_status = SyncStatus.pending := by
  refine ⟨by decide, ?_⟩
  intro u s2 h
  have hc := C4_update_version_increment exCfgQ exSt 1 exTask { name := some "n" }
    u s2 (by decide) h
  exact ⟨hc.1, hc.2.1⟩

/-- A map of the undefined-version markSynced row transformation changes
nothing. -/
theorem map_markSyncedRow_none (i : Nat) (l : List Task) :
    l.map (markSyncedRow i none) = l := by
  induction l with
  | nil => rfl
  | cons x xs ih => simp only [List.map_cons, markSyncedRow_none, ih]

/-- Claim C8: deleteTask on a present id soft-deletes through the full update
path: the stored row gets deleted_at set to the current time, sync_status
pending and version incremented by one; the id is afterwards excluded from
every getAll result while the record remains retrievable by getById. Stated
for the queued sync mode, in which no later sync transition touches the
row. -/
theorem C8_deleteTask_soft_delete (cfg : TaskServiceConfig) (s : St) (id : Nat)
    (t : Task) (hE : cfg.enableSync = true) (hW : cfg.syncOnWrite = false)
    (hloc : s.localRows.find? (fun x => x.id == id) = some t) :
    (deleteTask cfg id s).1 = Except.ok () ∧
    ∃ row,
      ((deleteTask cfg id s).2).localRows.find? (fun x => x.id == id) = some row ∧
      row.deleted_at = some s.clock ∧
      row.sync_status = SyncStatus.pending ∧
      row.version = t.version + 1 ∧
      (localGetById id ((deleteTask cfg id s).2)).1 = Except.ok (some row) ∧
      (∀ uid l2, (localGetAll uid ((deleteTask cfg id s).2)).1 = Except.ok l2 →
         ∀ x ∈ l2, x.id ≠ id) := by
  have hid : t.id = id := by simpa using List.find?_some hloc
  have hrowid :
      (applyUpdate t
        { ({ deleted_at := some (some s.clock)
             sync_status := some SyncStatus.pending } : TaskUpdate) with
            version := some (t.version + 1)
            sync_status := some SyncStatus.pending }).id = id := by
    rw [applyUpdate_id, hid]
  have hf1 := find?_map_replace hloc _ hrowid
  have hrun : deleteTask cfg id s = (Except.ok (),
      { s with
          localRows := s.localRows.map (fun r =>
            if r.id == id then
              applyUpdate t
                { ({ deleted_at := some (some s.clock)
                     sync_status := some SyncStatus.pending } : TaskUpdate) with
                    version := some (t.version + 1)
                    sync_status := some SyncStatus.pending }
            else r)
          queue := s.queue ++
            [{ id := s.nextId
               type := OpType.UPDATE
               taskId := id
               data := OpData.ofUpdate
                 { deleted_at := some (some s.clock)
                   sync_status := some SyncStatus.pending }
               previousVersion := some t.version
               retryCount := 0
               createdAt := s.clock + 1
               error := none }]
          nextId := s.nextId + 1
          clock := s.clock + 2 }) := by
    simp only [deleteTask, bind_def, tick, updateTask, localGetById, hloc,
               localUpdate, hE, hW, Bool.and_false, Bool.false_eq_true, if_false,
               eq_self_iff_true, if_true, catchE, queueEnqueue, pure_def]
  rw [hrun]
  refine ⟨rfl, _, hf1, rfl, rfl, rfl, ?_, ?_⟩
  · simp only [localGetById, hf1]
  · intro uid l2 hl2 x hx hxid
    simp only [localGetAll, Except.ok.injEq] at hl2
    rw [← hl2] at hx
    rw [mem_sortByCreatedDesc] at hx
    rw [List.mem_filter] at hx
    obtain ⟨hxmem, hxp⟩ := hx
    have hdel : x.deleted_at = none := by
      have h2 := (Bool.and_eq_true_iff.mp hxp).2
      simpa using h2
    rw [List.mem_map] at hxmem
    obtain ⟨r, hr, hfr⟩ := hxmem
    by_cases hrid : (r.id == id) = true
    · rw [if_pos hrid] at hfr
      rw [← hfr] at hdel
      simp [applyUpdate] at hdel
    · rw [if_neg hrid] at hfr
      rw [← hfr] at hxid
      exact hrid (beq_iff_eq.mpr hxid)

/-- Witness for C8 at a concrete world: soft-deleting the stored task. -/
theorem C8_witness :
    (deleteTask exCfgQ 1 exSt).1 = Except.ok () ∧
    ∃ row,
      ((deleteTask exCfgQ 1 exSt).2).localRows.find? (fun x => x.id == 1) = some row ∧
      row.deleted_at = some exSt.clock ∧
      row.sync_status = SyncStatus.pending ∧
      row.version = exTask.version + 1 ∧
      (localGetById 1 ((deleteTask exCfgQ 1 exSt).2)).1 = Except.ok (some row) ∧
      (∀ uid l2, (localGetAll uid ((deleteTask exCfgQ 1 exSt).2)).1 = Except.ok l2 →
         ∀ x ∈ l2, x.id ≠ 1) :=
  C8_deleteTask_soft_delete exCfgQ exSt 1 exTask rfl rfl (by decide)

/-- Claim C9: a background-mode createTask enqueues a CREATE operation whose
payload is the creation input, which carries no version field; when the
daemon later applies the operation successfully, executeOperation passes the
undefined payload version to markSynced, so the local rows are left exactly
as they were — the stored version-1 task is never marked synced. -/
theorem C9_create_background_payload_versionless (cfg : TaskServiceConfig)
    (s : St) (taskData : TaskCreate)
    (hE : cfg.enableSync = true) (hW : cfg.syncOnWrite = false)
    (hD : s.remoteDown = false) :
    ∃ task op s2,
      createTask cfg taskData s = (Except.ok task, s2) ∧
      task.version = 1 ∧
      task.sync_status = SyncStatus.pending ∧
      s2.localRows = s.localRows ++ [task] ∧
      s2.queue = s.queue ++ [op] ∧
      op.type = OpType.CREATE ∧
      op.taskId = task.id ∧
      op.data = OpData.ofCreate taskData ∧
      OpData.version op.data = none ∧
      ∃ s3, executeOperation op s2 = (Except.ok (), s3) ∧
        s3.localRows = s2.localRows := by
  have hrun : createTask cfg taskData s = (Except.ok
      ({ id := s.nextId
         name := taskData.name
         description := taskData.description
         finished := taskData.finished
         alarm_time := taskData.alarm_time
         frecuency := taskData.frecuency
         alarm_interval := taskData.alarm_interval
         user_id := taskData.user_id
         created_at := s.clock
         updated_at := s.clock
         deleted_at := none
         version := 1
         sync_status := SyncStatus.pending
         sync_error := none } : Task),
      { s with
          localRows := s.localRows ++
            [{ id := s.nextId
               name := taskData.name
               description := taskData.description
               finished := taskData.finished
               alarm_time := taskData.alarm_time
               frecuency := taskData.frecuency
               alarm_interval := taskData.alarm_interval
               user_id := taskData.user_id
               created_at := s.clock
               updated_at := s.clock
               deleted_at := none
               version := 1
               sync_status := SyncStatus.pending
               sync_error := none }]
          queue := s.queue ++
            [{ id := s.nextId + 1
               type := OpType.CREATE
               taskId := s.nextId
               data := OpData.ofCreate taskData
               previousVersion := none
               retryCount := 0
               createdAt := s.clock + 1
               error := none }]
          nextId := s.nextId + 2
          clock := s.clock + 2 }) := by
    simp only [createTask, bind_def, localCreate, hE, hW, Bool.false_eq_true,
               if_false, eq_self_iff_true, if_true, catchE, queueEnqueue,
               pure_def]
  refine ⟨_, _, _, hrun, rfl, rfl, rfl, rfl, rfl, rfl, rfl, rfl, ?_⟩
  have hex : executeOperation
      { id := s.nextId + 1
        type := OpType.CREATE
        taskId := s.nextId
        data := OpData.ofCreate taskData
        previousVersion := none
        retryCount := 0
        createdAt := s.clock + 1
        error := none }
      { s with
          localRows := s.localRows ++
            [{ id := s.nextId
               name := taskData.name
               description := taskData.description
               finished := taskData.finished
               alarm_time := taskData.alarm_time
               frecuency := taskData.frecuency
               alarm_interval := taskData.alarm_interval
               user_id := taskData.user_id
               created_at := s.clock
               updated_at := s.clock
               deleted_at := none
               version := 1
               sync_status := SyncStatus.pending
               sync_error := none }]
          queue := s.queue ++
            [{ id := s.nextId + 1
               type := OpType.CREATE
               taskId := s.nextId
               data := OpData.ofCreate taskData
               previousVersion := none
               retryCount := 0
               createdAt := s.clock + 1
               error := none }]
          nextId := s.nextId + 2
          clock := s.clock + 2 } = (Except.ok (),
      { s with
          localRows := s.localRows ++
            [{ id := s.nextId
               name := taskData.name
               description := taskData.description
               finished := taskData.finished
               alarm_time := taskData.alarm_time
               frecuency := taskData.frecuency
               alarm_interval := taskData.alarm_interval
               user_id := taskData.user_id
               created_at := s.clock
               updated_at := s.clock
               deleted_at := none
               version := 1
               sync_status := SyncStatus.pending
               sync_error := none }]
          remoteRows := s.remoteRows ++
            [{ id := s.nextId + 2
               name := taskData.name
               description := taskData.description
               finished := taskData.finished
               alarm_time := taskData.alarm_time
               frecuency := taskData.frecuency
               alarm_interval := taskData.alarm_interval
               user_id := taskData.user_id
               created_at := s.clock + 2
               updated_at := s.clock + 2
               deleted_at := taskData.deleted_at
               version := 1
               sync_status := SyncStatus.synced
               sync_error := none }]
          queue := s.queue ++
            [{ id := s.nextId + 1
               type := OpType.CREATE
               taskId := s.nextId
               data := OpData.ofCreate taskData
               previousVersion := none
               retryCount := 0
               createdAt := s.clock + 1
               error := none }]
          nextId := s.nextId + 3
          clock := s.clock + 3 }) := by
    simp only [executeOperation, bind_def, OpData.toTaskCreate, remoteCreate,
               hD, Bool.false_eq_true, if_false, localMarkSynced, OpData.version,
               pure_def, map_markSyncedRow_none]
  exact ⟨_, hex, rfl⟩

/-- Witness for C9 at a concrete world: the background create of a fresh
task. -/
theorem C9_witness :
    ∃ task op s2,
      createTask exCfgQ exCreate exSt = (Except.ok task, s2) ∧
      task.version = 1 ∧
      task.sync_status = SyncStatus.pending ∧
      s2.localRows = exSt.localRows ++ [task] ∧
      s2.queue = exSt.queue ++ [op] ∧
      op.type = OpType.CREATE ∧
      op.taskId = task.id ∧
      op.data = OpData.ofCreate exCreate ∧
      OpData.version op.data = none ∧
      ∃ s3, executeOperation op s2 = (Except.ok (), s3) ∧
        s3.localRows = s2.localRows :=
  C9_create_background_payload_versionless exCfgQ exSt exCreate rfl rfl rfl

theorem mergeLoop1_spec (localL : List Task) (rs : List Task) : ∀ (s : St),
    ∃ s2 ext, mergeLoop1 localL rs s = (Except.ok (), s2) ∧
      s2.localRows = s.localRows ++ ext ∧
      s2.queue = s.queue ∧
      s2.remoteRows = s.remoteRows ∧
      s2.remoteDown = s.remoteDown ∧
      s.nextId ≤ s2.nextId ∧
      (∀ x ∈ ext, s.nextId ≤ x.id) ∧
      (∀ r ∈ rs, hasId localL r.id = false →
        ∃ x ∈ ext, sameCreateFields x r ∧ x.version = 1 ∧
          x.sync_status = SyncStatus.pending) := by
  induction rs with
  | nil =>
      intro s
      refine ⟨s, [], rfl, by simp, rfl, rfl, rfl, le_refl _, by simp, by simp⟩
  | cons r rs ih =>
      intro s
      cases hc : hasId localL r.id with
      | true =>
          obtain ⟨s2, ext, hrun, h1, h2, h3, h4, h5, h6, h7⟩ := ih s
          refine ⟨s2, ext, ?_, h1, h2, h3, h4, h5, h6, ?_⟩
          · simp only [mergeLoop1, bind_def, hc, Bool.not_true, Bool.false_eq_true,
                       if_false, pure_def, hrun]
          · intro r2 hr2 habs
            rcases List.mem_cons.mp hr2 with h | h
            · rw [h] at habs
              rw [habs] at hc
              cases hc
            · exact h7 r2 h habs
      | false =>
          obtain ⟨s2, ext, hrun, h1, h2, h3, h4, h5, h6, h7⟩ := ih
            { s with
                localRows := s.localRows ++
                  [{ id := s.nextId
                     name := r.name
                     description := r.description
                     finished := r.finished
                     alarm_time := r.alarm_time
                     frecuency := r.frecuency
                     alarm_interval := r.alarm_interval
                     user_id := r.user_id
                     created_at := s.clock
                     updated_at := s.clock
                     deleted_at := none
                     version := 1
                     sync_status := SyncStatus.pending
                     sync_error := none }]
                nextId := s.nextId + 1
                clock := s.clock + 1 }
          refine ⟨s2,
            { id := s.nextId
              name := r.name
              description := r.description
              finished := r.finished
              alarm_time := r.alarm_time
              frecuency := r.frecuency
              alarm_interval := r.alarm_interval
              user_id := r.user_id
              created_at := s.clock
              updated_at := s.clock
              deleted_at := none
              version := 1
              sync_status := SyncStatus.pending
              sync_error := none } :: ext, ?_, ?_, h2, h3, h4, ?_, ?_, ?_⟩
          · simp only [mergeLoop1, bind_def, hc, Bool.not_false, eq_self_iff_true,
                       if_true, localCreate, taskCreateOfTask, pure_def, hrun]
          · rw [h1]
            simp
          · exact le_trans (Nat.le_succ _) h5
          · intro x hx
            rcases List.mem_cons.mp hx with h | h
            · rw [h]
            · exact le_trans (Nat.le_succ _) (h6 x h)
          · intro r2 hr2 habs
            rcases List.mem_cons.mp hr2 with h | h
            · refine ⟨_, List.mem_cons_self _ _, ?_⟩
              rw [h]
              exact ⟨⟨rfl, rfl, rfl, rfl, rfl, rfl, rfl⟩, rfl, rfl⟩
            · obtain ⟨x, hx, hprops⟩ := h7 r2 h habs
              exact ⟨x, List.mem_cons_of_mem _ hx, hprops⟩

theorem mergeLoop2_spec (remoteL : List Task) (ls : List Task) : ∀ (s : St),
    ∃ s2 ext, mergeLoop2 remoteL ls s = (Except.ok (), s2) ∧
      s2.localRows = s.localRows ∧
      s2.remoteRows = s.remoteRows ∧
      s2.remoteDown = s.remoteDown ∧
      s2.queue = s.queue ++ ext ∧
      (∀ l ∈ ls, hasId remoteL l.id = false → l.sync_status = SyncStatus.pending →
        ∃ op ∈ s2.queue, op.type = OpType.CREATE ∧ op.taskId = l.id ∧
          op.data = OpData.ofTask l) := by
  induction ls with
  | nil =>
      intro s
      refine ⟨s, [], rfl, rfl, rfl, rfl, by simp, by simp⟩
  | cons l ls ih =>
      intro s
      cases hc : (!(hasId remoteL l.id) && (l.sync_status == SyncStatus.pending)) with
      | false =>
          obtain ⟨s2, ext, hrun, h1, h2, h3, h4, h5⟩ := ih s
          refine ⟨s2, ext, ?_, h1, h2, h3, h4, ?_⟩
          · simp only [mergeLoop2, bind_def, hc, Bool.false_eq_true, if_false,
                       pure_def, hrun]
          · intro l2 hl2 habs hpend
            rcases List.mem_cons.mp hl2 with h | h
            · rw [h] at habs hpend
              rw [habs, hpend] at hc
              simp at hc
            · exact h5 l2 h habs hpend
      | true =>
          obtain ⟨s2, ext, hrun, h1, h2, h3, h4, h5⟩ := ih
            { s with
                queue := s.queue ++
                  [{ id := s.nextId
                     type := OpType.CREATE
                     taskId := l.id
                     data := OpData.ofTask l
                     previousVersion := none
                     retryCount := 0
                     createdAt := s.clock
                     error := none }]
                nextId := s.nextId + 1
                clock := s.clock + 1 }
          refine ⟨s2,
            { id := s.nextId
              type := OpType.CREATE
              taskId := l.id
              data := OpData.ofTask l
              previousVersion := none
              retryCount := 0
              createdAt := s.clock
              error := none } :: ext, ?_, h1, h2, h3, ?_, ?_⟩
          · simp only [mergeLoop2, bind_def, hc, eq_self_iff_true, if_true,
                       queueEnqueue, pure_def, hrun]
          · rw [h4]
            simp
          · intro l2 hl2 habs hpend
            rcases List.mem_cons.mp hl2 with h | h
            · refine ⟨{ id := s.nextId
                        type := OpType.CREATE
                        taskId := l.id
                        data := OpData.ofTask l
                        previousVersion := none
                        retryCount := 0
                        createdAt := s.clock
                        error := none }, ?_, rfl, ?_, ?_⟩
              · rw [h4]
                exact List.mem_append_left _
                  (List.mem_append_right _ (List.mem_cons_self _ _))
              · rw [h]
              · rw [h]
            · exact h5 l2 h habs hpend

theorem mergeLoop3_spec (remoteL : List Task) (ls : List Task) : ∀ (s : St),
    (∀ l ∈ ls, s.localRows.find? (fun x => x.id == l.id) = some l) →
    (ls.map Task.id).Nodup →
    ∃ s2 ext, mergeLoop3 remoteL ls s = (Except.ok (), s2) ∧
      s2.queue = s.queue ++ ext ∧
      s2.remoteRows = s.remoteRows ∧
      (∀ i, i ∉ ls.map Task.id →
        s2.localRows.find? (fun x => x.id == i) =
          s.localRows.find? (fun x => x.id == i)) ∧
      (∀ x ∈ s.localRows, x.id ∉ ls.map Task.id → x ∈ s2.localRows) ∧
      (∀ l ∈ ls, ∀ r, findById remoteL l.id = some r → l.version ≠ r.version →
        ((r.updated_at > l.updated_at →
           s2.localRows.find? (fun x => x.id == l.id) =
             some (applyUpdate l (taskUpdateOfTask r))) ∧
         (¬ r.updated_at > l.updated_at →
           ∃ op ∈ s2.queue, op.type = OpType.UPDATE ∧ op.taskId = l.id ∧
             op.data = OpData.ofTask l ∧ op.previousVersion = some r.version))) := by
  induction ls with
  | nil =>
      intro s hfind hnd
      refine ⟨s, [], rfl, by simp, rfl, fun i _ => rfl, fun x hx _ => hx, by simp⟩
  | cons l ls ih =>
      intro s hfind hnd
      simp only [List.map_cons, List.nodup_cons] at hnd
      obtain ⟨hlnotin, hndtail⟩ := hnd
      have hfhead := hfind l (List.mem_cons_self _ _)
      cases hfr : findById remoteL l.id with
      | none =>
          obtain ⟨s2, ext, hrun, hq, hrr, hframe, hmem, hprop⟩ := ih s
            (fun l2 hl2 => hfind l2 (List.mem_cons_of_mem _ hl2)) hndtail
          refine ⟨s2, ext, ?_, hq, hrr, ?_, ?_, ?_⟩
          · simp only [mergeLoop3, bind_def, hfr, pure_def, hrun]
          · intro i hi
            exact hframe i (fun h => hi (List.mem_cons_of_mem _ h))
          · intro x hx hxid
            exact hmem x hx (fun h => hxid (List.mem_cons_of_mem _ h))
          · intro l2 hl2 r2 hr hv
            rcases List.mem_cons.mp hl2 with h | h
            · rw [h] at hr
              rw [hfr] at hr
              cases hr
            · exact hprop l2 h r2 hr hv
      | some r =>
          cases hvb : (l.version != r.version) with
          | false =>
              obtain ⟨s2, ext, hrun, hq, hrr, hframe, hmem, hprop⟩ := ih s
                (fun l2 hl2 => hfind l2 (List.mem_cons_of_mem _ hl2)) hndtail
              refine ⟨s2, ext, ?_, hq, hrr, ?_, ?_, ?_⟩
              · simp only [mergeLoop3, bind_def, hfr, hvb, Bool.false_eq_true,
                           if_false, pure_def, hrun]
              · intro i hi
                exact hframe i (fun h => hi (List.mem_cons_of_mem _ h))
              · intro x hx hxid
                exact hmem x hx (fun h => hxid (List.mem_cons_of_mem _ h))
              · intro l2 hl2 r2 hr hv
                rcases List.mem_cons.mp hl2 with h | h
                · exfalso
                  rw [h] at hr hv
                  rw [hfr] at hr
                  cases hr
                  have hbt : (l.version != r.version) = true := bne_iff_ne.mpr hv
                  rw [hbt] at hvb
                  cases hvb
                · exact hprop l2 h r2 hr hv
          | true =>
              by_cases hgt : r.updated_at > l.updated_at
              · have hfindtail : ∀ l2 ∈ ls,
                    (({ s with localRows := s.localRows.map (fun x =>
                        if x.id == l.id then applyUpdate l (taskUpdateOfTask r)
                        else x) } : St)).localRows.find?
                      (fun x => x.id == l2.id) = some l2 := by
                  intro l2 hl2
                  have hne : l2.id ≠ l.id := by
                    intro hcc
                    exact hlnotin (by rw [← hcc]; exact List.mem_map_of_mem Task.id hl2)
                  show (s.localRows.map (fun x =>
                      if x.id == l.id then applyUpdate l (taskUpdateOfTask r)
                      else x)).find? (fun x => x.id == l2.id) = some l2
                  rw [find?_map_replace_ne _ (applyUpdate_id _ _) hne]
                  exact hfind l2 (List.mem_cons_of_mem _ hl2)
                obtain ⟨s2, ext, hrun, hq, hrr, hframe, hmem, hprop⟩ := ih
                  { s with localRows := s.localRows.map (fun x =>
                      if x.id == l.id then applyUpdate l (taskUpdateOfTask r)
                      else x) }
                  hfindtail hndtail
                refine ⟨s2, ext, ?_, hq, hrr, ?_, ?_, ?_⟩
                · simp only [mergeLoop3, bind_def, hfr, hvb, eq_self_iff_true,
                             if_true, hgt, localUpdate, hfhead, pure_def, hrun]
                · intro i hi
                  have hil : i ≠ l.id := by
                    intro hcc
                    exact hi (by rw [hcc]; simp)
                  rw [hframe i (fun h => hi (List.mem_cons_of_mem _ h))]
                  exact find?_map_replace_ne _ (applyUpdate_id _ _) hil
                · intro x hx hxid
                  have hxl : x.id ≠ l.id := by
                    intro hcc
                    exact hxid (by rw [hcc]; simp)
                  refine hmem x ?_ (fun h => hxid (List.mem_cons_of_mem _ h))
                  exact mem_map_replace_of_ne _ hx hxl
                · intro l2 hl2 r2 hr hv
                  rcases List.mem_cons.mp hl2 with h | h
                  · rw [h] at hr hv ⊢
                    rw [hfr] at hr
                    cases hr
                    constructor
                    · intro _
                      rw [hframe l.id hlnotin]
                      exact find?_map_replace hfhead _ (applyUpdate_id _ _)
                    · intro hngt
                      exact absurd hgt hngt
                  · exact hprop l2 h r2 hr hv
              · obtain ⟨s2, ext, hrun, hq, hrr, hframe, hmem, hprop⟩ := ih
                  { s with
                      queue := s.queue ++
                        [{ id := s.nextId
                           type := OpType.UPDATE
                           taskId := l.id
                           data := OpData.ofTask l
                           previousVersion := some r.version
                           retryCount := 0
                           createdAt := s.clock
                           error := none }]
                      nextId := s.nextId + 1
                      clock := s.clock + 1 }
                  (fun l2 hl2 => hfind l2 (List.mem_cons_of_mem _ hl2)) hndtail
                refine ⟨s2,
                  { id := s.nextId
                    type := OpType.UPDATE
                    taskId := l.id
                    data := OpData.ofTask l
                    previousVersion := some r.version
                    retryCount := 0
                    createdAt := s.clock
                    error := none } :: ext, ?_, ?_, hrr, ?_, ?_, ?_⟩
                · simp only [mergeLoop3, bind_def, hfr, hvb, eq_self_iff_true,
                             if_true, hgt, if_false, iff_false, queueEnqueue,
                             pure_def, hrun]
                · rw [hq]
                  simp
                · intro i hi
                  exact hframe i (fun h => hi (List.mem_cons_of_mem _ h))
                · intro x hx hxid
                  exact hmem x hx (fun h => hxid (List.mem_cons_of_mem _ h))
                · intro l2 hl2 r2 hr hv
                  rcases List.mem_cons.mp hl2 with h | h
                  · rw [h] at hr hv ⊢
                    rw [hfr] at hr
                    cases hr
                    constructor
                    · intro hg2
                      exact absurd hg2 hgt
                    · intro _
                      refine ⟨{ id := s.nextId
                                type := OpType.UPDATE
                                taskId := l.id
                                data := OpData.ofTask l
                                previousVersion := some r.version
                                retryCount := 0
                                createdAt := s.clock
                                error := none }, ?_, rfl, rfl, rfl, rfl⟩
                      rw [hq]
                      exact List.mem_append_left _
                        (List.mem_append_right _ (List.mem_cons_self _ _))
                  · exact hprop l2 h r2 hr hv

/-- Claim C5: the fullSync reconciliation sweep. Starting from a local store
whose rows include the compared local set, mergeChanges (1) creates locally a
record carrying the payload of every remote task absent locally, (2)
enqueues a CREATE operation carrying every pending local task absent
remotely, and (3) for every id on both sides with differing versions either
overwrites the local record with the remote fields and version when the
remote updated_at is strictly later, or enqueues an UPDATE carrying the
remote version as previousVersion. -/
theorem C5_mergeChanges_reconciliation (s : St) (localL remoteL : List Task)
    (hfind : ∀ l ∈ localL, s.localRows.find? (fun x => x.id == l.id) = some l)
    (hndL : (localL.map Task.id).Nodup)
    (hfresh : ∀ l ∈ localL, l.id < s.nextId) :
    ∃ s2, mergeChanges localL remoteL s = (Except.ok (), s2) ∧
      (∀ r ∈ remoteL, hasId localL r.id = false →
        ∃ x ∈ s2.localRows, sameCreateFields x r ∧ x.version = 1 ∧
          x.sync_status = SyncStatus.pending) ∧
      (∀ l ∈ localL, hasId remoteL l.id = false →
          l.sync_status = SyncStatus.pending →
        ∃ op ∈ s2.queue, op.type = OpType.CREATE ∧ op.taskId = l.id ∧
          op.data = OpData.ofTask l) ∧
      (∀ l ∈ localL, ∀ r, findById remoteL l.id = some r → l.version ≠ r.version →
        ((r.updated_at > l.updated_at →
           s2.localRows.find? (fun x => x.id == l.id) =
             some (applyUpdate l (taskUpdateOfTask r))) ∧
         (¬ r.updated_at > l.updated_at →
           ∃ op ∈ s2.queue, op.type = OpType.UPDATE ∧ op.taskId = l.id ∧
             op.data = OpData.ofTask l ∧ op.previousVersion = some r.version))) := by
  obtain ⟨sB, ext1, hrun1, hBrows, hBq, hBrr, hBrd, hBn, hBids, hBcreate⟩ :=
    mergeLoop1_spec localL remoteL s
  obtain ⟨sC, ext2, hrun2, hCrows, hCrr, hCrd, hCq, hCenq⟩ :=
    mergeLoop2_spec remoteL localL sB
  have hfindC : ∀ l ∈ localL, sC.localRows.find? (fun x => x.id == l.id) = some l := by
    intro l hl
    rw [hCrows, hBrows, List.find?_append, hfind l hl]
    rfl
  obtain ⟨sD, ext3, hrun3, hDq, hDrr, hDframe, hDmem, hDprop⟩ :=
    mergeLoop3_spec remoteL localL sC hfindC hndL
  refine ⟨sD, ?_, ?_, ?_, ?_⟩
  · simp only [mergeChanges, bind_def, hrun1, hrun2, hrun3]
  · intro r hr habs
    obtain ⟨x, hxext, hxprops⟩ := hBcreate r hr habs
    refine ⟨x, ?_, hxprops⟩
    have hxid : x.id ∉ localL.map Task.id := by
      intro hcc
      obtain ⟨l, hlmem, hlid⟩ := List.mem_map.mp hcc
      have h1 := hBids x hxext
      have h2 := hfresh l hlmem
      rw [hlid] at h2
      omega
    refine hDmem x ?_ hxid
    rw [hCrows, hBrows]
    exact List.mem_append_right _ hxext
  · intro l hl habs hpend
    obtain ⟨op, hopmem, hoprops⟩ := hCenq l hl habs hpend
    refine ⟨op, ?_, hoprops⟩
    rw [hDq]
    exact List.mem_append_left _ hopmem
  · intro l hl r hr hv
    exact hDprop l hl r hr hv

/-- Witness for C5 at a concrete world: a sweep over a conflicting task, a
pending never-pushed task and a remote-only task. -/
theorem C5_witness :
    ∃ s2, mergeChanges [exLocal2, exLocalB] [exRemote3, exRemoteNew] exStSync =
        (Except.ok (), s2) ∧
      (∀ r ∈ [exRemote3, exRemoteNew], hasId [exLocal2, exLocalB] r.id = false →
        ∃ x ∈ s2.localRows, sameCreateFields x r ∧ x.version = 1 ∧
          x.sync_status = SyncStatus.pending) ∧
      (∀ l ∈ [exLocal2, exLocalB], hasId [exRemote3, exRemoteNew] l.id = false →
          l.sync_status = SyncStatus.pending →
        ∃ op ∈ s2.queue, op.type = OpType.CREATE ∧ op.taskId = l.id ∧
          op.data = OpData.ofTask l) ∧
      (∀ l ∈ [exLocal2, exLocalB], ∀ r,
          findById [exRemote3, exRemoteNew] l.id = some r →
          l.version ≠ r.version →
        ((r.updated_at > l.updated_at →
           s2.localRows.find? (fun x => x.id == l.id) =
             some (applyUpdate l (taskUpdateOfTask r))) ∧
         (¬ r.updated_at > l.updated_at →
           ∃ op ∈ s2.queue, op.type = OpType.UPDATE ∧ op.taskId = l.id ∧
             op.data = OpData.ofTask l ∧ op.previousVersion = some r.version))) :=
  C5_mergeChanges_reconciliation exStSync [exLocal2, exLocalB]
    [exRemote3, exRemoteNew] (by decide) (by decide) (by decide)

/-- Claim C2, code evidence: with maxRetries 2 and a queued operation whose
retryCount has already reached 2, a failing attempt marks the owning task
errored with the failure message but does not remove the operation — the
queue still holds it and the next dequeue returns it again, so it is
re-dequeued forever instead of being dropped. -/
theorem C2_retry_exhausted_operation_not_removed :
    (processQueue exSyncCfg exStQueue).1 = Except.ok () ∧
    ((processQueue exSyncCfg exStQueue).2).queue = [exOp] ∧
    ((processQueue exSyncCfg exStQueue).2).localRows.map Task.sync_status =
      [SyncStatus.error] ∧
    ((processQueue exSyncCfg exStQueue).2).localRows.map Task.sync_error =
      [some "Supabase error"] ∧
    (queueDequeue ((processQueue exSyncCfg exStQueue).2)).1 =
      Except.ok (some exOp) := by
  decide

end LocalFirst
